import Mathlib

/-!
Verification of the workflow orchestration control plane
(`src/workflow_system/workflow_api.py`).

The data model (Task, Agent, Workflow and the two status enums) lives in
`workflow_models.py`, which is not part of the available sources; those
definitions are modelled from the specification (spec.md sections 3,
4.3, 4.4).  All operations (broadcast, start, update, decompose, the
background tick, the dashboard statistics) are translated directly from
`workflow_api.py`.
-/

namespace WorkflowSys

/-- Modelled from the spec: the Task status enum of `workflow_models.py`
(not under src/).  Section 3 and 8 of the spec mention "pending",
"in progress" and "completed" statuses; a "failed" status is included to
carry the error taxonomy. -/
inductive TaskStatus where
  | pending
  | in_progress
  | completed
  | failed
  deriving DecidableEq, Repr

/-- Modelled from the spec: the string value of each Task status, as used
by `TaskStatus(...)` parsing and `status.value` in `workflow_api.py`. -/
def TaskStatus.value : TaskStatus → String
  | .pending => "pending"
  | .in_progress => "in_progress"
  | .completed => "completed"
  | .failed => "failed"

/-- Modelled from the spec: `TaskStatus(request.status)` in Python looks a
status up by its string value and raises ValueError when the string does
not match a known value (spec 4.3 step 2). -/
def TaskStatus.parse (s : String) : Option TaskStatus :=
  if s = "pending" then some .pending
  else if s = "in_progress" then some .in_progress
  else if s = "completed" then some .completed
  else if s = "failed" then some .failed
  else none

/-- Modelled from the spec: the list of all Task status values, in the
order the enum declares them (used by the `for status in TaskStatus`
comprehension of `get_dashboard_stats`). -/
def TaskStatus.all : List TaskStatus :=
  [.pending, .in_progress, .completed, .failed]

/-- Modelled from the spec: the Workflow status enum (spec 4.4:
PENDING, EXECUTING, COMPLETED, FAILED). -/
inductive WorkflowStatus where
  | pending
  | executing
  | completed
  | failed
  deriving DecidableEq, Repr

/-- Modelled from the spec: an opaque result payload (a JSON-style string
map).  Python truthiness of a dict is non-emptiness, which matters for
`if request.result:` in `update_task`. -/
abbrev Payload := List (String × String)

/-- Modelled from the spec: a Task (spec section 3), carrying only the
fields the core operations read or write. -/
structure Task where
  id : String
  title : String
  status : TaskStatus
  assigned_agent_id : Option String
  result : Option Payload
  errors : List String
  completed_at : Option Nat
  deriving DecidableEq, Repr

/-- Modelled from the spec: an Agent (spec section 3). -/
structure Agent where
  id : String
  name : String
  current_tasks : List String
  max_concurrent_tasks : Nat
  deriving DecidableEq, Repr

/-- Modelled from the spec: a Workflow (spec section 3): an ordered task
sequence and a pool of agents. -/
structure Workflow where
  id : String
  title : String
  status : WorkflowStatus
  tasks : List Task
  agents : List Agent
  deriving DecidableEq, Repr

/-- The body of a `TaskUpdateRequest` (`workflow_api.py`, class
`TaskUpdateRequest`): requested status string, optional result payload,
optional error strings. -/
structure TaskUpdateRequest where
  task_id : String
  status : String
  result : Option Payload
  errors : Option (List String)

/-! ## Event broadcaster (`WebSocketManager`, workflow_api.py lines 31-53)

Connections are modelled by their identities (natural numbers); a
delivery attempt either succeeds or fails, captured by a failure
predicate on connections.  `broadcast` never lets a per-connection
failure escape: the Python body catches every send exception and only
records the connection for pruning. -/

/-- `WebSocketManager.disconnect`: remove the connection from the active
list if present (the Python code guards `remove` with a membership
test). -/
def disconnect (c : Nat) (active : List Nat) : List Nat :=
  if c ∈ active then active.erase c else active

/-- The send loop of `WebSocketManager.broadcast`: attempt delivery to
each connection in order; a failed send is caught and the connection
recorded in the `disconnected` list instead.  Returns the connections
that received the event and the failed ones, each in iteration order. -/
def broadcastLoop (fails : Nat → Bool) : List Nat → List Nat × List Nat
  | [] => ([], [])
  | c :: rest =>
    let (sent, disconnected) := broadcastLoop fails rest
    if fails c then (sent, c :: disconnected) else (c :: sent, disconnected)

/-- `WebSocketManager.broadcast`: run the send loop over the active
connections, then disconnect each connection that failed delivery.
Returns the list of connections that received the event and the new
active-connection list. -/
def broadcast (fails : Nat → Bool) (active : List Nat) : List Nat × List Nat :=
  let (delivered, disconnected) := broadcastLoop fails active
  (delivered, disconnected.foldl (fun l c => disconnect c l) active)

theorem broadcastLoop_eq_filter (fails : Nat → Bool) (active : List Nat) :
    broadcastLoop fails active
      = (active.filter (fun c => ¬ fails c), active.filter (fun c => fails c)) := by
  induction active with
  | nil => rfl
  | cons c rest ih =>
    by_cases h : fails c <;> simp [broadcastLoop, ih, List.filter_cons, h]

/-! ## Lemmas about broadcast -/

theorem disconnect_eq_erase (c : Nat) (l : List Nat) :
    disconnect c l = l.erase c := by
  unfold disconnect
  split
  · rfl
  · rename_i h
    exact (List.erase_of_not_mem h).symm

theorem foldl_disconnect_cons_of_ne (ds : List Nat) (x : Nat) (l : List Nat)
    (hx : ∀ c ∈ ds, c ≠ x) :
    ds.foldl (fun acc c => disconnect c acc) (x :: l)
      = x :: ds.foldl (fun acc c => disconnect c acc) l := by
  induction ds generalizing l with
  | nil => rfl
  | cons d ds ih =>
    have hdx : d ≠ x := hx d (List.mem_cons_self d ds)
    have : disconnect d (x :: l) = x :: disconnect d l := by
      rw [disconnect_eq_erase, disconnect_eq_erase]
      exact List.erase_cons_tail (by simp [Ne.symm hdx])
    rw [List.foldl_cons, this, List.foldl_cons]
    exact ih (disconnect d l) (fun c hc => hx c (List.mem_cons_of_mem d hc))

theorem foldl_disconnect_filter (p : Nat → Bool) (l : List Nat) :
    (l.filter p).foldl (fun acc c => disconnect c acc) l
      = l.filter (fun c => ¬ p c) := by
  induction l with
  | nil => rfl
  | cons x xs ih =>
    by_cases hp : p x
    · have hfil : (x :: xs).filter p = x :: xs.filter p := by
        simp [List.filter_cons, hp]
      rw [hfil, List.foldl_cons]
      have hx : disconnect x (x :: xs) = xs := by
        rw [disconnect_eq_erase, List.erase_cons_head]
      rw [hx, ih]
      simp [List.filter_cons, hp]
    · have hfil : (x :: xs).filter p = xs.filter p := by
        simp [List.filter_cons, hp]
      rw [hfil]
      have hx : ∀ c ∈ xs.filter p, c ≠ x := by
        intro c hc hcx
        have : p c = true := (List.mem_filter.mp hc).2
        rw [hcx] at this
        exact hp this
      rw [foldl_disconnect_cons_of_ne _ _ _ hx, ih]
      simp [List.filter_cons, hp]

/-! ## Workflow start (`start_workflow`, workflow_api.py lines 204-223)

The handler body after the store lookup (the claims concern workflows
present in the store).  `launches` counts the detached executions the
call creates via `asyncio.create_task`; `events` lists the event types
broadcast.  Note the handler never assigns `workflow.status`: the only
status writes in `workflow_api.py` are the FAILED fallback inside
`execute_workflow_background`. -/

/-- The observable outcome of one `start_workflow` call: the response
message, the number of detached executions launched, and the broadcast
event types. -/
structure StartResult where
  message : String
  launches : Nat
  events : List String
  deriving DecidableEq, Repr

/-- `start_workflow` on a workflow found in the store: if the status is
already EXECUTING, return the informational message and do nothing else;
otherwise create one detached execution task and broadcast
"workflow_started".  The workflow object itself is returned as the
handler leaves it. -/
def start_workflow (wf : Workflow) : Workflow × StartResult :=
  if wf.status = WorkflowStatus.executing then
    (wf, ⟨"Workflow is already running", 0, []⟩)
  else
    (wf, ⟨"Workflow execution started", 1, ["workflow_started"]⟩)

/-! ## Task update protocol (`update_task`, workflow_api.py lines 225-277) -/

/-- Errors surfaced by `update_task`: HTTP 404 for an unknown task id,
HTTP 400 for an unparseable status string. -/
inductive UpdateError where
  | NOT_FOUND
  | INVALID_STATUS
  deriving DecidableEq, Repr

/-- Python truthiness of an optional string (`if task.assigned_agent_id:`):
None and the empty string are falsy. -/
def strOptTruthy : Option String → Bool
  | none => false
  | some s => s ≠ ""

/-- The agent-side effect of completing a task (workflow_api.py lines
258-262): `next(...)` selects the first agent whose id matches the
task's assigned agent id; if that agent's `current_tasks` contains the
task id, `list.remove` deletes its first occurrence.  Agents after the
first match are untouched, and a missing agent or an absent id is a
no-op. -/
def removeTaskFromAgents (tid : String) (aid : String) : List Agent → List Agent
  | [] => []
  | a :: rest =>
    if a.id = aid then
      (if tid ∈ a.current_tasks then
        { a with current_tasks := a.current_tasks.erase tid }
      else a) :: rest
    else
      a :: removeTaskFromAgents tid aid rest

/-- Line 249-250 of workflow_api.py: `if request.result: task.result =
request.result`.  Python dict truthiness: a missing (None) or empty
payload is skipped, a non-empty payload overwrites the task's result. -/
def applyResult (r? : Option Payload) (task : Task) : Task :=
  match r? with
  | some r => if r ≠ [] then { task with result := some r } else task
  | none => task

/-- Line 252-253 of workflow_api.py: `if request.errors:
task.errors.extend(request.errors)`.  Python list truthiness: a missing
or empty list is skipped, otherwise the strings are appended. -/
def applyErrors (e? : Option (List String)) (task : Task) : Task :=
  match e? with
  | some es => if es ≠ [] then { task with errors := task.errors ++ es } else task
  | none => task

/-- The try-block of `update_task` applied to the located task and its
workflow's agents.  `none` models the ValueError raised by
`TaskStatus(request.status)`, which in Python occurs before any field
assignment, so the error case carries no mutation.  When the new status
is COMPLETED the task is stamped with the current time and, when an
agent id is assigned (truthy string), the task id is removed from that
agent's current task list. -/
def applyUpdate (now : Nat) (req : TaskUpdateRequest) (task : Task)
    (agents : List Agent) : Option (Task × List Agent) :=
  match TaskStatus.parse req.status with
  | none => none
  | some newStatus =>
    let task3 := applyErrors req.errors (applyResult req.result { task with status := newStatus })
    if newStatus = TaskStatus.completed then
      let task4 := { task3 with completed_at := some now }
      match task4.assigned_agent_id with
      | some aid =>
        if aid = "" then some (task4, agents)
        else some (task4, removeTaskFromAgents task4.id aid agents)
      | none => some (task4, agents)
    else
      some (task3, agents)

/-- The Python `next((a for a in workflow.agents if a.id == ...), None)`:
first agent with the given id, if any. -/
def findAgent (aid : String) : List Agent → Option Agent
  | [] => none
  | a :: rest => if a.id = aid then some a else findAgent aid rest

/-- First task with the given id in a task sequence (the inner search
loop of `update_task` and `decompose_task` breaks at the first match). -/
def findFirstTask (tid : String) : List Task → Option Task
  | [] => none
  | t :: rest => if t.id = tid then some t else findFirstTask tid rest

/-- Replace the first task with the given id (the located task is
mutated in place in Python). -/
def replaceFirstTask (tid : String) (t2 : Task) : List Task → List Task
  | [] => []
  | t :: rest => if t.id = tid then t2 :: rest else t :: replaceFirstTask tid t2 rest

/-- The double search loop shared by `update_task` and `decompose_task`:
the task carried by the first workflow containing a task with the given
id (first matching task of that workflow). -/
def findStoreTask (tid : String) : List Workflow → Option Task
  | [] => none
  | wf :: rest =>
    match findFirstTask tid wf.tasks with
    | some t => some t
    | none => findStoreTask tid rest

/-- `update_task` over the whole store: the outer loop scans workflows in
order and stops at the first workflow containing a task with the
requested id.  Returns the post-call store and the response; on an
error the store is returned unchanged, because in Python both the 404
and the ValueError fire before any mutation. -/
def update_task (now : Nat) (req : TaskUpdateRequest) :
    List Workflow → List Workflow × Except UpdateError Unit
  | [] => ([], .error .NOT_FOUND)
  | wf :: rest =>
    match findFirstTask req.task_id wf.tasks with
    | some task =>
      match applyUpdate now req task wf.agents with
      | none => (wf :: rest, .error .INVALID_STATUS)
      | some (task2, agents2) =>
        let wf2 : Workflow :=
          { wf with
            tasks := replaceFirstTask req.task_id task2 wf.tasks
            agents := agents2 }
        (wf2 :: rest, .ok ())
    | none =>
      let (rest2, r) := update_task now req rest
      (wf :: rest2, r)

/-! ## Decomposition splicer (`decompose_task`, workflow_api.py lines 279-319) -/

/-- The splice `workflow.tasks[i:i+1] = subtasks` where
`i = workflow.tasks.index(task)`: replace the first occurrence of the
located task by the full subtask sequence. -/
def spliceTask (t : Task) (subs : List Task) : List Task → List Task
  | [] => []
  | x :: rest => if x = t then subs ++ rest else x :: spliceTask t subs rest

/-- Responses of `decompose_task`: HTTP 404, HTTP 500 when the external
Decomposer raised, or success with the produced subtasks. -/
inductive DecomposeResult where
  | NOT_FOUND
  | SERVER_FAILURE (detail : String)
  | ok (subtasks : List Task)
  deriving DecidableEq, Repr

/-- `decompose_task` over the whole store.  The external Task Decomposer
is a parameter returning either subtasks or a failure.  The splice in
Python happens only after the decomposer call returns, so a decomposer
failure reaches the except-handler with the store untouched and is
surfaced as HTTP 500. -/
def decompose_task (decomposer : Task → Except String (List Task))
    (tid : String) : List Workflow → List Workflow × DecomposeResult
  | [] => ([], .NOT_FOUND)
  | wf :: rest =>
    match findFirstTask tid wf.tasks with
    | some task =>
      match decomposer task with
      | .error e => (wf :: rest, .SERVER_FAILURE e)
      | .ok subs =>
        ({ wf with tasks := spliceTask task subs wf.tasks } :: rest, .ok subs)
    | none =>
      let (rest2, r) := decompose_task decomposer tid rest
      (wf :: rest2, r)

/-! ## Assignment loop (`background_workflow_processor`, workflow_api.py
lines 374-387)

One tick of the perpetual loop.  The Python `try` wraps the whole `for`
over the store: an exception from `agent_manager.assign_tasks` for one
workflow escapes the `for`, is caught by the `except` (logged), and the
loop sleeps and starts the next tick.  The external Agent Manager is a
parameter that either returns the mutated workflow or fails; the tick
returns the post-tick store, the ids of workflows on which
`assign_tasks` was invoked this tick (in order), and the captured fault
if any. -/
def background_tick (assign : Workflow → Except String Workflow) :
    List Workflow → List Workflow × List String × Option String
  | [] => ([], [], none)
  | wf :: rest =>
    if wf.status = WorkflowStatus.executing then
      match assign wf with
      | .error e => (wf :: rest, [wf.id], some e)
      | .ok wf2 =>
        let (rest2, invoked, fault) := background_tick assign rest
        (wf2 :: rest2, wf.id :: invoked, fault)
    else
      let (rest2, invoked, fault) := background_tick assign rest
      (wf :: rest2, invoked, fault)

/-! ## Dashboard statistics (`get_dashboard_stats`, workflow_api.py lines
321-359) -/

/-- The aggregate statistics record returned by the endpoint. -/
structure DashboardStats where
  total_workflows : Nat
  total_tasks : Nat
  completed_tasks : Nat
  total_agents : Nat
  active_agents : Nat
  task_distribution : List (String × Nat)
  agent_loads : List (String × Nat)
  deriving Repr

/-- One increment step of `task_distribution[task.status.value] += 1`
on the association list keyed by status value. -/
def incr (key : String) : List (String × Nat) → List (String × Nat)
  | [] => []
  | (k, n) :: rest => if k = key then (k, n + 1) :: rest else (k, n) :: incr key rest

/-- The initial distribution `{status.value: 0 for status in TaskStatus}`. -/
def task_distribution_init : List (String × Nat) :=
  TaskStatus.all.map (fun s => (s.value, 0))

/-- `get_dashboard_stats`: pure aggregation over the store; it performs
no writes (the handler only reads `workflows_storage`).  The agent load
percentage is integer-rounded here; its exact value is not load-bearing
for any property below. -/
def get_dashboard_stats (store : List Workflow) : DashboardStats :=
  { total_workflows := store.length
    total_tasks := (store.map (fun wf => wf.tasks.length)).sum
    completed_tasks := (store.map (fun wf =>
      (wf.tasks.filter (fun t => t.status = TaskStatus.completed)).length)).sum
    total_agents := (store.map (fun wf => wf.agents.length)).sum
    active_agents := (store.map (fun wf =>
      (wf.agents.filter (fun a => a.current_tasks.length > 0)).length)).sum
    task_distribution :=
      ((store.map (fun wf => wf.tasks)).flatten).foldl
        (fun d t => incr t.status.value d) task_distribution_init
    agent_loads :=
      ((store.map (fun wf => wf.agents)).flatten).map
        (fun a => (a.name, a.current_tasks.length * 100 / a.max_concurrent_tasks)) }

/-! ## Sample values used by witnesses and counterexamples -/

/-- A task with the given id and status and all optional fields empty. -/
def mkTask (i : String) (st : TaskStatus) : Task :=
  { id := i, title := i, status := st, assigned_agent_id := none,
    result := none, errors := [], completed_at := none }

/-- Sample tasks. -/
def tA : Task := mkTask "A" .pending

/-- Sample task B. -/
def tB : Task := mkTask "B" .pending

/-- Sample task C. -/
def tC : Task := mkTask "C" .completed

/-- Sample subtask. -/
def tS1 : Task := mkTask "S1" .pending

/-- Sample subtask. -/
def tS2 : Task := mkTask "S2" .pending

/-- A sample workflow holding the three sample tasks. -/
def wfSample : Workflow :=
  { id := "wf1", title := "sample", status := WorkflowStatus.pending,
    tasks := [tA, tB, tC], agents := [] }

/-! ## Claim C9 — best-effort broadcast -/

/-- C9: for every set of registered connections and every per-connection
failure behaviour, a broadcast delivers the event to exactly the
non-failing connections (each in registration order, so every
non-failing connection receives it), and the post-broadcast registered
set is exactly the non-failing connections: every connection that failed
delivery has been removed and no non-failing connection has been
removed.  The broadcaster is a total function, so no exception escapes
it. -/
theorem broadcast_best_effort (fails : Nat → Bool) (active : List Nat) :
    broadcast fails active
      = (active.filter (fun c => ¬ fails c), active.filter (fun c => ¬ fails c)) := by
  simp only [broadcast, broadcastLoop_eq_filter]
  rw [foldl_disconnect_filter]

/-! ## Claim C1 — workflow start -/

/-- A workflow whose status is not EXECUTING. -/
def wfPending : Workflow :=
  { id := "wf1", title := "sample", status := WorkflowStatus.pending,
    tasks := [], agents := [] }

/-- C1 counterexample: starting a PENDING workflow does not transition
its status to EXECUTING (the handler never writes the status), so a
second consecutive start call launches a second detached execution: two
consecutive start calls produce two detached executions, contrary to
the claim. -/
theorem start_workflow_counterexample :
    (start_workflow wfPending).1.status ≠ WorkflowStatus.executing ∧
    (start_workflow wfPending).2.launches = 1 ∧
    (start_workflow (start_workflow wfPending).1).2.launches = 1 := by
  decide

/-- C1 amended: start on an already-EXECUTING workflow is a no-op
returning the informational result and launching nothing; otherwise it
launches exactly one detached execution and broadcasts
"workflow_started" but leaves the workflow (its status included)
unchanged.  Hence two consecutive start calls launch nothing when the
workflow is EXECUTING, and one detached execution each — two in total —
when it is not. -/
theorem start_workflow_spec (wf : Workflow) :
    start_workflow wf
      = (wf, if wf.status = WorkflowStatus.executing then
              ⟨"Workflow is already running", 0, []⟩
            else ⟨"Workflow execution started", 1, ["workflow_started"]⟩) ∧
    (start_workflow wf).2.launches + (start_workflow (start_workflow wf).1).2.launches
      = (if wf.status = WorkflowStatus.executing then 0 else 2) := by
  by_cases h : wf.status = WorkflowStatus.executing <;>
    simp [start_workflow, h]

/-! ## Claim C3 — decomposition splice -/

theorem spliceTask_append (P S subs : List Task) (t : Task) (hP : t ∉ P) :
    spliceTask t subs (P ++ t :: S) = P ++ subs ++ S := by
  induction P with
  | nil => simp [spliceTask]
  | cons x xs ih =>
    have hxt : x ≠ t := fun h => hP (h ▸ List.mem_cons_self x xs)
    have hxs : t ∉ xs := fun h => hP (List.mem_cons_of_mem x h)
    simp [spliceTask, hxt, ih hxs]

/-- C3: when a workflow's task sequence is P ++ [T] ++ S with T not
occurring in P (task ids are unique, so the located first occurrence of
T is this one), splicing T into the subtasks [S1..Sn] yields exactly
P ++ [S1..Sn] ++ S: the subtasks sit contiguously at T's former index in
their given order and every other task keeps its relative position; and
T itself is absent from the result whenever it is none of the subtasks
and does not occur in S. -/
theorem decompose_splice_preserves_order (P S subs : List Task) (t : Task)
    (hP : t ∉ P) :
    spliceTask t subs (P ++ t :: S) = P ++ subs ++ S ∧
    (t ∉ subs → t ∉ S → t ∉ spliceTask t subs (P ++ t :: S)) := by
  refine ⟨spliceTask_append P S subs t hP, ?_⟩
  intro h1 h2
  rw [spliceTask_append P S subs t hP]
  simp [List.mem_append, hP, h1, h2]

/-- C3 witness: splicing task B of [A, B, C] into [S1, S2] yields
[A, S1, S2, C] and B is gone. -/
theorem decompose_splice_preserves_order_witness :
    spliceTask tB [tS1, tS2] ([tA] ++ tB :: [tC]) = [tA] ++ [tS1, tS2] ++ [tC] ∧
    tB ∉ spliceTask tB [tS1, tS2] ([tA] ++ tB :: [tC]) := by
  have h := decompose_splice_preserves_order [tA] [tC] [tS1, tS2] tB (by decide)
  exact ⟨h.1, h.2 (by decide) (by decide)⟩

/-! ## Claim C8 — decomposition failure is atomic -/

/-- C8: when the task is present in the store and the external
Decomposer fails on it, `decompose_task` returns the store exactly as it
was — every workflow's task sequence unmodified — and surfaces the
failure as a server-side failure (HTTP 500). -/
theorem decompose_task_failure_atomic (d : Task → Except String (List Task))
    (tid : String) (store : List Workflow) (task : Task) (e : String)
    (hfind : findStoreTask tid store = some task) (hfail : d task = .error e) :
    decompose_task d tid store = (store, DecomposeResult.SERVER_FAILURE e) := by
  induction store with
  | nil => simp [findStoreTask] at hfind
  | cons wf rest ih =>
    simp only [findStoreTask] at hfind
    cases hft : findFirstTask tid wf.tasks with
    | some t0 =>
      rw [hft] at hfind
      have ht : t0 = task := by injection hfind
      subst ht
      simp only [decompose_task, hft, hfail]
    | none =>
      rw [hft] at hfind
      simp only [decompose_task, hft, ih hfind]

/-- C8 witness: a failing decomposer on the sample store leaves the
store unchanged and yields the server failure. -/
theorem decompose_task_failure_atomic_witness :
    decompose_task (fun _ => Except.error "boom") "A" [wfSample]
      = ([wfSample], DecomposeResult.SERVER_FAILURE "boom") := by
  exact decompose_task_failure_atomic (fun _ => Except.error "boom") "A"
    [wfSample] tA "boom" (by decide) rfl

/-! ## Claim C4 — assignment-loop fault isolation -/

/-- An executing workflow used in tick scenarios. -/
def wfE0 : Workflow :=
  { id := "w0", title := "w0", status := WorkflowStatus.executing,
    tasks := [], agents := [] }

/-- Another executing workflow. -/
def wfE1 : Workflow :=
  { id := "w1", title := "w1", status := WorkflowStatus.executing,
    tasks := [], agents := [] }

/-- A third executing workflow. -/
def wfE2 : Workflow :=
  { id := "w2", title := "w2", status := WorkflowStatus.executing,
    tasks := [], agents := [] }

/-- An agent manager that faults exactly on workflow "w1". -/
def assignFailW1 : Workflow → Except String Workflow :=
  fun wf => if wf.id = "w1" then Except.error "boom" else Except.ok wf

theorem background_tick_cons_exec_err (assign : Workflow → Except String Workflow)
    (w : Workflow) (ws : List Workflow) (e : String)
    (hs : w.status = WorkflowStatus.executing) (ha : assign w = .error e) :
    background_tick assign (w :: ws) = (w :: ws, [w.id], some e) := by
  simp [background_tick, hs, ha]

theorem background_tick_cons_exec_ok (assign : Workflow → Except String Workflow)
    (w w2 : Workflow) (ws : List Workflow)
    (hs : w.status = WorkflowStatus.executing) (ha : assign w = .ok w2) :
    background_tick assign (w :: ws)
      = (w2 :: (background_tick assign ws).1,
         w.id :: (background_tick assign ws).2.1,
         (background_tick assign ws).2.2) := by
  rcases hws : background_tick assign ws with ⟨a, b, c⟩
  simp [background_tick, hs, ha, hws]

theorem background_tick_cons_nonexec (assign : Workflow → Except String Workflow)
    (w : Workflow) (ws : List Workflow)
    (hs : ¬ w.status = WorkflowStatus.executing) :
    background_tick assign (w :: ws)
      = (w :: (background_tick assign ws).1,
         (background_tick assign ws).2.1,
         (background_tick assign ws).2.2) := by
  rcases hws : background_tick assign ws with ⟨a, b, c⟩
  simp [background_tick, hs, hws]

/-- C4 counterexample: with two EXECUTING workflows "w1" and "w2" in the
store and an agent manager that faults on "w1", the tick invokes
`assign_tasks` only on "w1": workflow "w2" is EXECUTING yet is not
assigned in that tick, because the Python try-block wraps the whole for
loop and the exception aborts the remainder of the iteration. -/
theorem background_tick_skips_counterexample :
    wfE2.status = WorkflowStatus.executing ∧
    (background_tick assignFailW1 [wfE1, wfE2]).2.1 = ["w1"] ∧
    "w2" ∉ (background_tick assignFailW1 [wfE1, wfE2]).2.1 := by
  decide

/-- C4 amended: a fault raised by `assign_tasks` for one EXECUTING
workflow never crashes the loop — the fault is captured (logged) and the
tick ends, to be retried after the sleep — but it does abort the rest of
that tick's iteration: exactly the EXECUTING workflows preceding the
faulting one, plus the faulting one itself, have `assign_tasks` invoked
in that tick, and the workflows from the faulting one onwards are left
as they were. -/
theorem background_tick_fault_isolation
    (assign : Workflow → Except String Workflow) (P rest : List Workflow)
    (wf : Workflow) (e : String)
    (hP : ∀ w ∈ P, w.status = WorkflowStatus.executing → ∃ w2, assign w = .ok w2)
    (hwf : wf.status = WorkflowStatus.executing) (he : assign wf = .error e) :
    (background_tick assign (P ++ wf :: rest)).2.2 = some e ∧
    (background_tick assign (P ++ wf :: rest)).2.1
      = (P.filter (fun w => w.status = WorkflowStatus.executing)).map Workflow.id
          ++ [wf.id] ∧
    ∃ P2, (background_tick assign (P ++ wf :: rest)).1 = P2 ++ wf :: rest := by
  induction P with
  | nil =>
    rw [List.nil_append, background_tick_cons_exec_err assign wf rest e hwf he]
    exact ⟨rfl, rfl, [], rfl⟩
  | cons w ws ih =>
    have hP' : ∀ w' ∈ ws, w'.status = WorkflowStatus.executing →
        ∃ w2, assign w' = .ok w2 :=
      fun w' hw' => hP w' (List.mem_cons_of_mem w hw')
    obtain ⟨h1, h2, P2, h3⟩ := ih hP'
    by_cases hs : w.status = WorkflowStatus.executing
    · obtain ⟨w2, hw2⟩ := hP w (List.mem_cons_self w ws) hs
      rw [List.cons_append, background_tick_cons_exec_ok assign w w2 _ hs hw2]
      refine ⟨h1, ?_, w2 :: P2, ?_⟩
      · simp [List.filter_cons, hs, h2]
      · simp [h3]
    · rw [List.cons_append, background_tick_cons_nonexec assign w _ hs]
      refine ⟨h1, ?_, w :: P2, ?_⟩
      · simp [List.filter_cons, hs, h2]
      · simp [h3]

/-- C4 witness: store [w0, w1, w2], all EXECUTING, fault on "w1": the
fault is captured, exactly w0 and w1 are assigned, and the store from
"w1" on is untouched. -/
theorem background_tick_fault_isolation_witness :
    (background_tick assignFailW1 ([wfE0] ++ wfE1 :: [wfE2])).2.2 = some "boom" ∧
    (background_tick assignFailW1 ([wfE0] ++ wfE1 :: [wfE2])).2.1
      = ([wfE0].filter (fun w => w.status = WorkflowStatus.executing)).map Workflow.id
          ++ [wfE1.id] ∧
    ∃ P2, (background_tick assignFailW1 ([wfE0] ++ wfE1 :: [wfE2])).1
      = P2 ++ wfE1 :: [wfE2] := by
  refine background_tick_fault_isolation assignFailW1 [wfE0] [wfE2] wfE1 "boom"
    ?_ rfl rfl
  intro w hw hst
  simp only [List.mem_singleton] at hw
  subst hw
  exact ⟨wfE0, rfl⟩

/-! ## Claim C2 — invalid status leaves the task untouched -/

/-- C2: when some workflow in the store holds a task with the requested
id but the requested status string parses to no known Task status value,
`update_task` answers INVALID_STATUS and returns the store exactly as it
was: the task's status, result payload and error list are all unchanged
(no partial mutation — in the source the ValueError fires before any
field assignment). -/
theorem update_task_invalid_status_no_mutation
    (now : Nat) (req : TaskUpdateRequest) (store : List Workflow) (task : Task)
    (hfind : findStoreTask req.task_id store = some task)
    (hparse : TaskStatus.parse req.status = none) :
    update_task now req store = (store, Except.error UpdateError.INVALID_STATUS) := by
  induction store with
  | nil => simp [findStoreTask] at hfind
  | cons wf rest ih =>
    simp only [findStoreTask] at hfind
    cases hft : findFirstTask req.task_id wf.tasks with
    | some t0 =>
      have hnone : applyUpdate now req t0 wf.agents = none := by
        simp [applyUpdate, hparse]
      simp only [update_task, hft, hnone]
    | none =>
      rw [hft] at hfind
      simp only [update_task, hft, ih hfind]

/-- An update request carrying an unrecognized status string. -/
def reqBad : TaskUpdateRequest :=
  { task_id := "A", status := "bogus", result := none, errors := none }

/-- C2 witness: the bogus request against the sample store yields
INVALID_STATUS and the untouched store. -/
theorem update_task_invalid_status_no_mutation_witness :
    update_task 0 reqBad [wfSample]
      = ([wfSample], Except.error UpdateError.INVALID_STATUS) := by
  exact update_task_invalid_status_no_mutation 0 reqBad [wfSample] tA
    (by decide) (by decide)

/-! ## Field lemmas for the update try-block -/

@[simp] theorem applyResult_id (r? : Option Payload) (t : Task) :
    (applyResult r? t).id = t.id := by
  cases r? with
  | none => rfl
  | some r => simp only [applyResult]; split <;> rfl

@[simp] theorem applyResult_status (r? : Option Payload) (t : Task) :
    (applyResult r? t).status = t.status := by
  cases r? with
  | none => rfl
  | some r => simp only [applyResult]; split <;> rfl

@[simp] theorem applyResult_errors (r? : Option Payload) (t : Task) :
    (applyResult r? t).errors = t.errors := by
  cases r? with
  | none => rfl
  | some r => simp only [applyResult]; split <;> rfl

@[simp] theorem applyResult_assigned (r? : Option Payload) (t : Task) :
    (applyResult r? t).assigned_agent_id = t.assigned_agent_id := by
  cases r? with
  | none => rfl
  | some r => simp only [applyResult]; split <;> rfl

@[simp] theorem applyResult_completed_at (r? : Option Payload) (t : Task) :
    (applyResult r? t).completed_at = t.completed_at := by
  cases r? with
  | none => rfl
  | some r => simp only [applyResult]; split <;> rfl

theorem applyResult_result (r? : Option Payload) (t : Task) :
    (applyResult r? t).result
      = (match r? with
         | some r => if r ≠ [] then some r else t.result
         | none => t.result) := by
  cases r? with
  | none => rfl
  | some r => simp only [applyResult]; split <;> simp_all

@[simp] theorem applyErrors_id (e? : Option (List String)) (t : Task) :
    (applyErrors e? t).id = t.id := by
  cases e? with
  | none => rfl
  | some es => simp only [applyErrors]; split <;> rfl

@[simp] theorem applyErrors_status (e? : Option (List String)) (t : Task) :
    (applyErrors e? t).status = t.status := by
  cases e? with
  | none => rfl
  | some es => simp only [applyErrors]; split <;> rfl

@[simp] theorem applyErrors_result (e? : Option (List String)) (t : Task) :
    (applyErrors e? t).result = t.result := by
  cases e? with
  | none => rfl
  | some es => simp only [applyErrors]; split <;> rfl

@[simp] theorem applyErrors_assigned (e? : Option (List String)) (t : Task) :
    (applyErrors e? t).assigned_agent_id = t.assigned_agent_id := by
  cases e? with
  | none => rfl
  | some es => simp only [applyErrors]; split <;> rfl

@[simp] theorem applyErrors_completed_at (e? : Option (List String)) (t : Task) :
    (applyErrors e? t).completed_at = t.completed_at := by
  cases e? with
  | none => rfl
  | some es => simp only [applyErrors]; split <;> rfl

theorem applyErrors_errors (e? : Option (List String)) (t : Task) :
    (applyErrors e? t).errors
      = t.errors ++ (match e? with | some es => es | none => []) := by
  cases e? with
  | none => simp [applyErrors]
  | some es =>
    simp only [applyErrors]
    split
    · rfl
    · rename_i hes
      simp at hes
      simp [hes]

/-- When the status string parses, the update try-block succeeds and
its task component is the located task with the new status, the result
and error effects, and the completion stamp when completing. -/
theorem applyUpdate_some (now : Nat) (req : TaskUpdateRequest) (task : Task)
    (agents : List Agent) (st : TaskStatus)
    (hp : TaskStatus.parse req.status = some st) :
    ∃ task2 agents2, applyUpdate now req task agents = some (task2, agents2) ∧
      task2 = (let t3 := applyErrors req.errors
                 (applyResult req.result { task with status := st })
               if st = TaskStatus.completed then { t3 with completed_at := some now }
               else t3) := by
  simp only [applyUpdate, hp]
  by_cases hc : st = TaskStatus.completed
  · cases ha : task.assigned_agent_id with
    | none => simp [hc, ha]
    | some aid =>
      by_cases haid : aid = ""
      · simp [hc, ha, haid]
      · simp [hc, ha, haid]
  · simp [hc]

/-! ## Claim C5 — result overwrite and error append -/

/-- The task targeted by the C5 counterexample: it already carries a
non-empty result payload. -/
def task5 : Task :=
  { id := "A", title := "A", status := TaskStatus.pending,
    assigned_agent_id := none, result := some [("a", "1")], errors := [],
    completed_at := none }

/-- An update request supplying an empty result payload. -/
def req5 : TaskUpdateRequest :=
  { task_id := "A", status := "in_progress", result := some [], errors := none }

/-- C5 counterexample: an update supplying an empty result payload
succeeds, yet the task's result is not overwritten with that payload —
it keeps its previous value, because `if request.result:` is false for
an empty dict.  The claim's "this holds for every supplied payload,
including an empty one" therefore fails. -/
theorem update_task_empty_result_counterexample :
    req5.result = some [] ∧
    applyUpdate 0 req5 task5 []
      = some ({ task5 with status := TaskStatus.in_progress }, []) ∧
    ({ task5 with status := TaskStatus.in_progress }).result = some [("a", "1")] := by
  decide

/-- C5 amended: for every task update with a valid status, a supplied
non-empty result payload overwrites the task's result, while a missing
or empty supplied payload leaves the result unchanged; supplied error
strings are appended to the task's error list, which is never shortened
or overwritten, only grown (an empty or missing supplied list appends
nothing). -/
theorem update_task_result_errors_spec (now : Nat) (req : TaskUpdateRequest)
    (task : Task) (agents : List Agent) (task2 : Task) (agents2 : List Agent)
    (h : applyUpdate now req task agents = some (task2, agents2)) :
    task2.result = (match req.result with
                    | some r => if r ≠ [] then some r else task.result
                    | none => task.result) ∧
    task2.errors = task.errors ++ (match req.errors with
                    | some es => es
                    | none => []) := by
  cases hp : TaskStatus.parse req.status with
  | none => simp [applyUpdate, hp] at h
  | some st =>
    obtain ⟨t2, a2, heq, ht2⟩ := applyUpdate_some now req task agents st hp
    rw [heq] at h
    have hpair : (t2, a2) = (task2, agents2) := by injection h
    have ht : t2 = task2 := congrArg Prod.fst hpair
    rw [← ht, ht2]
    constructor
    · by_cases hc : st = TaskStatus.completed <;>
        simp [hc, applyErrors_result, applyResult_result]
    · by_cases hc : st = TaskStatus.completed <;>
        simp [hc, applyErrors_errors]

/-- A valid completing update supplying a non-empty payload and one
error string. -/
def req5w : TaskUpdateRequest :=
  { task_id := "A", status := "completed", result := some [("b", "2")],
    errors := some ["e1"] }

/-- The task produced by applying `req5w` to `task5` at time 3. -/
def task5out : Task :=
  { id := "A", title := "A", status := TaskStatus.completed,
    assigned_agent_id := none, result := some [("b", "2")], errors := ["e1"],
    completed_at := some 3 }

/-- C5 witness: on the sample task, the non-empty payload overwrites the
result and the supplied error string is appended. -/
theorem update_task_result_errors_spec_witness :
    task5out.result = (match req5w.result with
                       | some r => if r ≠ [] then some r else task5.result
                       | none => task5.result) ∧
    task5out.errors = task5.errors ++ (match req5w.errors with
                       | some es => es
                       | none => []) := by
  exact update_task_result_errors_spec 3 req5w task5 [] task5out [] (by decide)

/-! ## Claim C7 — completion timestamp -/

/-- A bare completing update request. -/
def req7 : TaskUpdateRequest :=
  { task_id := "A", status := "completed", result := none, errors := none }

/-- Task "A" completed at time 1. -/
def task7a : Task :=
  { id := "A", title := "A", status := TaskStatus.completed,
    assigned_agent_id := none, result := none, errors := [],
    completed_at := some 1 }

/-- Task "A" completed at time 2. -/
def task7b : Task :=
  { id := "A", title := "A", status := TaskStatus.completed,
    assigned_agent_id := none, result := none, errors := [],
    completed_at := some 2 }

/-- C7 counterexample: a first completing update stamps completed_at
with the current time, but a second completing update at a later time
overwrites it — the stamp is not set exactly once, because the code
stamps on every update whose new status is COMPLETED rather than only on
the transition into COMPLETED. -/
theorem completed_at_restamped_counterexample :
    applyUpdate 1 req7 (mkTask "A" TaskStatus.pending) [] = some (task7a, []) ∧
    task7a.completed_at = some 1 ∧
    applyUpdate 2 req7 task7a [] = some (task7b, []) ∧
    task7b.completed_at = some 2 ∧
    task7b.completed_at ≠ task7a.completed_at := by
  decide

/-- C7 amended: every update whose parsed status is COMPLETED stamps
completed_at with the current time — including an update of an
already-COMPLETED task, which overwrites the previous stamp — and every
update to a non-COMPLETED status leaves completed_at unchanged. -/
theorem completed_at_stamped_on_completion (now : Nat) (req : TaskUpdateRequest)
    (task : Task) (agents : List Agent) (task2 : Task) (agents2 : List Agent)
    (st : TaskStatus) (hp : TaskStatus.parse req.status = some st)
    (h : applyUpdate now req task agents = some (task2, agents2)) :
    task2.completed_at
      = (if st = TaskStatus.completed then some now else task.completed_at) := by
  obtain ⟨t2, a2, heq, ht2⟩ := applyUpdate_some now req task agents st hp
  rw [heq] at h
  have hpair : (t2, a2) = (task2, agents2) := by injection h
  have ht : t2 = task2 := congrArg Prod.fst hpair
  rw [← ht, ht2]
  by_cases hc : st = TaskStatus.completed <;> simp [hc]

/-- C7 witness: the completing update of the pending sample task at
time 1 carries the stamp `some 1`. -/
theorem completed_at_stamped_on_completion_witness :
    task7a.completed_at
      = (if TaskStatus.completed = TaskStatus.completed then some 1
         else (mkTask "A" TaskStatus.pending).completed_at) := by
  exact completed_at_stamped_on_completion 1 req7 (mkTask "A" TaskStatus.pending)
    [] task7a [] TaskStatus.completed (by decide) (by decide)

/-! ## Claim C6 — completion removes the task from its agent -/

theorem findAgent_removeTaskFromAgents (tid aid : String) (agents : List Agent) :
    findAgent aid (removeTaskFromAgents tid aid agents)
      = (findAgent aid agents).map
          (fun a => if tid ∈ a.current_tasks
                    then { a with current_tasks := a.current_tasks.erase tid }
                    else a) := by
  induction agents with
  | nil => rfl
  | cons a rest ih =>
    by_cases hid : a.id = aid
    · by_cases hmem : tid ∈ a.current_tasks
      · simp [removeTaskFromAgents, findAgent, hid, hmem]
      · simp [removeTaskFromAgents, findAgent, hid, hmem]
    · simp [removeTaskFromAgents, findAgent, hid, ih]

theorem removeTaskFromAgents_noop (tid aid : String) (agents : List Agent)
    (h : ∀ a, findAgent aid agents = some a → tid ∉ a.current_tasks) :
    removeTaskFromAgents tid aid agents = agents := by
  induction agents with
  | nil => rfl
  | cons a rest ih =>
    by_cases hid : a.id = aid
    · have hmem := h a (by simp [findAgent, hid])
      simp [removeTaskFromAgents, hid, hmem]
    · have h' : ∀ a', findAgent aid rest = some a' → tid ∉ a'.current_tasks := by
        intro a' ha'
        exact h a' (by simp [findAgent, hid, ha'])
      simp [removeTaskFromAgents, hid, ih h']

/-- Shape of a successful completing update of a task with a truthy
assigned agent id: the task is stamped and the id is removed from the
first matching agent's current task list. -/
theorem applyUpdate_completed_assigned (now : Nat) (req : TaskUpdateRequest)
    (task : Task) (agents : List Agent) (aid : String)
    (hp : TaskStatus.parse req.status = some TaskStatus.completed)
    (ha : task.assigned_agent_id = some aid) (hne : aid ≠ "") :
    applyUpdate now req task agents
      = some ({ applyErrors req.errors (applyResult req.result
                  { task with status := TaskStatus.completed })
                with completed_at := some now },
              removeTaskFromAgents task.id aid agents) := by
  simp only [applyUpdate, hp]
  simp [ha, hne]

/-- C6: for every update that completes a task carrying a (truthy)
assigned agent id, given the store invariant that the task id occurs at
most once in that agent's current task list, the task id is absent from
the (first matching) agent's current tasks after the update; and
re-applying the same completing update succeeds without error and
leaves the agent list unchanged — removing an absent id is a no-op. -/
theorem update_task_completion_removes_from_agent
    (now now2 : Nat) (req : TaskUpdateRequest) (task : Task)
    (agents : List Agent) (task2 : Task) (agents2 : List Agent) (aid : String)
    (hp : TaskStatus.parse req.status = some TaskStatus.completed)
    (ha : task.assigned_agent_id = some aid) (hne : aid ≠ "")
    (hcount : ∀ a, findAgent aid agents = some a →
      a.current_tasks.count task.id ≤ 1)
    (h : applyUpdate now req task agents = some (task2, agents2)) :
    (∀ a2, findAgent aid agents2 = some a2 → task.id ∉ a2.current_tasks) ∧
    (∃ task3, applyUpdate now2 req task2 agents2 = some (task3, agents2)) := by
  rw [applyUpdate_completed_assigned now req task agents aid hp ha hne] at h
  have hpair : ({ applyErrors req.errors (applyResult req.result
        { task with status := TaskStatus.completed })
        with completed_at := some now },
      removeTaskFromAgents task.id aid agents) = (task2, agents2) := by
    injection h
  have htask : task2 = { applyErrors req.errors (applyResult req.result
      { task with status := TaskStatus.completed })
      with completed_at := some now } := (congrArg Prod.fst hpair).symm
  have hagents : agents2 = removeTaskFromAgents task.id aid agents :=
    (congrArg Prod.snd hpair).symm
  have part1 : ∀ a2, findAgent aid agents2 = some a2 →
      task.id ∉ a2.current_tasks := by
    intro a2 h2
    rw [hagents, findAgent_removeTaskFromAgents] at h2
    cases hfa : findAgent aid agents with
    | none => rw [hfa] at h2; simp at h2
    | some a =>
      rw [hfa] at h2
      rw [Option.map_some'] at h2
      have ha2 : (if task.id ∈ a.current_tasks
          then { a with current_tasks := a.current_tasks.erase task.id }
          else a) = a2 := by injection h2
      by_cases hmem : task.id ∈ a.current_tasks
      · rw [if_pos hmem] at ha2
        rw [← ha2]
        have hc := hcount a hfa
        have hz : (a.current_tasks.erase task.id).count task.id = 0 := by
          have := List.count_erase_self task.id a.current_tasks
          omega
        exact List.count_eq_zero.mp hz
      · rw [if_neg hmem] at ha2
        rw [← ha2]
        exact hmem
  refine ⟨part1, ?_⟩
  have ha2' : task2.assigned_agent_id = some aid := by
    rw [htask]
    simp [ha]
  have hid2 : task2.id = task.id := by
    rw [htask]
    simp
  have h2eq := applyUpdate_completed_assigned now2 req task2 agents2 aid hp ha2' hne
  rw [hid2, removeTaskFromAgents_noop task.id aid agents2 part1] at h2eq
  exact ⟨_, h2eq⟩

/-- The agent working on sample task "A". -/
def agX : Agent :=
  { id := "X", name := "X", current_tasks := ["A"], max_concurrent_tasks := 2 }

/-- The agent after task "A" has been completed. -/
def agX0 : Agent :=
  { id := "X", name := "X", current_tasks := [], max_concurrent_tasks := 2 }

/-- Sample in-progress task "A" assigned to agent "X". -/
def task6 : Task :=
  { id := "A", title := "A", status := TaskStatus.in_progress,
    assigned_agent_id := some "X", result := none, errors := [],
    completed_at := none }

/-- Task `task6` after a completing update at time 1. -/
def task6a : Task :=
  { id := "A", title := "A", status := TaskStatus.completed,
    assigned_agent_id := some "X", result := none, errors := [],
    completed_at := some 1 }

/-- C6 witness: completing `task6` at time 1 clears agent "X"'s task
list, and re-applying the completion at time 2 succeeds and leaves the
agent list unchanged. -/
theorem update_task_completion_removes_from_agent_witness :
    (∀ a2, findAgent "X" [agX0] = some a2 → task6.id ∉ a2.current_tasks) ∧
    (∃ task3, applyUpdate 2 req7 task6a [agX0] = some (task3, [agX0])) := by
  refine update_task_completion_removes_from_agent 1 2 req7 task6 [agX]
    task6a [agX0] "X" (by decide) (by decide) (by decide) ?_ (by decide)
  intro a h
  have ha : some agX = some a := by
    simpa [findAgent, agX] using h
  have ha2 : agX = a := by injection ha
  rw [← ha2]
  decide

/-! ## Claim C10 — dashboard statistics consistency -/

theorem incr_keys (k : String) (d : List (String × Nat)) :
    (incr k d).map Prod.fst = d.map Prod.fst := by
  induction d with
  | nil => rfl
  | cons p rest ih =>
    rcases p with ⟨k0, n⟩
    by_cases hk : k0 = k
    · simp [incr, hk]
    · simp [incr, hk, ih]

theorem incr_sum (k : String) (d : List (String × Nat))
    (hk : k ∈ d.map Prod.fst) :
    ((incr k d).map Prod.snd).sum = (d.map Prod.snd).sum + 1 := by
  induction d with
  | nil => simp at hk
  | cons p rest ih =>
    rcases p with ⟨k0, n⟩
    by_cases h : k0 = k
    · simp [incr, h]
      omega
    · have hk' : k ∈ rest.map Prod.fst := by
        simp only [List.map_cons, List.mem_cons] at hk
        rcases hk with hk | hk
        · exact absurd hk.symm h
        · exact hk
      simp [incr, h, ih hk']
      omega

theorem status_mem_all (s : TaskStatus) : s ∈ TaskStatus.all := by
  cases s <;> decide

theorem foldl_incr_keys (ts : List Task) (d : List (String × Nat)) :
    ((ts.foldl (fun d t => incr t.status.value d) d).map Prod.fst)
      = d.map Prod.fst := by
  induction ts generalizing d with
  | nil => rfl
  | cons t ts ih => rw [List.foldl_cons, ih, incr_keys]

theorem foldl_incr_sum (ts : List Task) (d : List (String × Nat))
    (hd : d.map Prod.fst = TaskStatus.all.map TaskStatus.value) :
    ((ts.foldl (fun d t => incr t.status.value d) d).map Prod.snd).sum
      = (d.map Prod.snd).sum + ts.length := by
  induction ts generalizing d with
  | nil => simp
  | cons t ts ih =>
    rw [List.foldl_cons]
    have hmem : t.status.value ∈ d.map Prod.fst := by
      rw [hd]
      exact List.mem_map_of_mem TaskStatus.value (status_mem_all t.status)
    rw [ih (incr t.status.value d) (by rw [incr_keys, hd])]
    rw [incr_sum t.status.value d hmem]
    simp [List.length_cons]
    omega

theorem task_distribution_init_keys :
    task_distribution_init.map Prod.fst = TaskStatus.all.map TaskStatus.value := by
  decide

/-- C10: for every store, the dashboard statistics are internally
consistent — completed_tasks never exceeds total_tasks, active_agents
never exceeds total_agents, the task distribution has exactly one key
per Task status value (in declaration order) and its counts sum to
total_tasks.  `get_dashboard_stats` is a pure read of the store (the
handler performs no writes), so computing it leaves the store
unchanged. -/
theorem dashboard_stats_consistent (store : List Workflow) :
    (get_dashboard_stats store).completed_tasks
      ≤ (get_dashboard_stats store).total_tasks ∧
    (get_dashboard_stats store).active_agents
      ≤ (get_dashboard_stats store).total_agents ∧
    (get_dashboard_stats store).task_distribution.map Prod.fst
      = TaskStatus.all.map TaskStatus.value ∧
    ((get_dashboard_stats store).task_distribution.map Prod.snd).sum
      = (get_dashboard_stats store).total_tasks := by
  refine ⟨?_, ?_, ?_, ?_⟩
  · simp only [get_dashboard_stats]
    exact List.sum_le_sum (fun wf _ => List.length_filter_le _ _)
  · simp only [get_dashboard_stats]
    exact List.sum_le_sum (fun wf _ => List.length_filter_le _ _)
  · simp only [get_dashboard_stats]
    rw [foldl_incr_keys, task_distribution_init_keys]
  · simp only [get_dashboard_stats]
    rw [foldl_incr_sum _ _ task_distribution_init_keys]
    have h0 : (task_distribution_init.map Prod.snd).sum = 0 := by decide
    rw [h0, List.length_flatten, List.map_map, Nat.zero_add]
    rfl

end WorkflowSys
